import Mathlib

/-!
Verification of the mesh-depth optimization engine of Kimera-VIO
(`src/mesh/MeshOptimization.cpp`) against its natural-language
specification.

The embedding below models pixel coordinates and camera intrinsics over `ℚ`
(the C++ code computes with floating point; the geometric and combinatorial
claims under scrutiny are about the exact field semantics of the formulas),
and uses `ℝ` only where the source genuinely leaves the rationals
(`normalized()` bearing vectors and `std::sqrt` — see `V3R.norm`).

Layout: all definitions first, then all lemmas and the claim theorems.
-/

namespace KimeraVIO

/-- Pixel / 2D vertex coordinates, `cv::Point2f` in the source. -/
abbrev Pix : Type := ℚ × ℚ

/-- Embedding of `MeshOptimization::sign` (MeshOptimization.cpp lines 687-691):
`(p1.x - p3.x) * (p2.y - p3.y) - (p2.x - p3.x) * (p1.y - p3.y)`,
twice the signed area of the triangle `(p1, p2, p3)`. -/
def sign (p1 p2 p3 : Pix) : ℚ :=
  (p1.1 - p3.1) * (p2.2 - p3.2) - (p2.1 - p3.1) * (p1.2 - p3.2)

/-- Embedding of `MeshOptimization::pointInTriangle` (lines 693-708): computes the three
edge signs `d1 = sign(pt, v1, v2)`, `d2 = sign(pt, v2, v3)`,
`d3 = sign(pt, v3, v1)` and returns `!(has_neg && has_pos)`. -/
def pointInTriangle (pt v1 v2 v3 : Pix) : Bool :=
  let d1 := sign pt v1 v2
  let d2 := sign pt v2 v3
  let d3 := sign pt v3 v1
  let has_neg := decide (d1 < 0 ∨ d2 < 0 ∨ d3 < 0)
  let has_pos := decide (0 < d1 ∨ 0 < d2 ∨ 0 < d3)
  !(has_neg && has_pos)

/-- Orientation determinant `orient a b c = (b - a) × (c - a)`; positive iff
`(a, b, c)` is counter-clockwise.  Geometric vocabulary used to state what
"inside / outside / on an edge" means, independently of the code. -/
def orient (a b c : Pix) : ℚ :=
  (b.1 - a.1) * (c.2 - a.2) - (c.1 - a.1) * (b.2 - a.2)

/-- Point `pt` is strictly inside triangle `(v1, v2, v3)`: it is a barycentric
combination with all three weights strictly positive. -/
def strictlyInside (pt v1 v2 v3 : Pix) : Prop :=
  ∃ a b c : ℚ, 0 < a ∧ 0 < b ∧ 0 < c ∧ a + b + c = 1 ∧
    pt.1 = a * v1.1 + b * v2.1 + c * v3.1 ∧
    pt.2 = a * v1.2 + b * v2.2 + c * v3.2

/-- Point `pt` lies in the closed triangle `(v1, v2, v3)` (all barycentric weights
nonnegative).  A point strictly outside the triangle is one not satisfying
this predicate. -/
def inClosedTriangle (pt v1 v2 v3 : Pix) : Prop :=
  ∃ a b c : ℚ, 0 ≤ a ∧ 0 ≤ b ∧ 0 ≤ c ∧ a + b + c = 1 ∧
    pt.1 = a * v1.1 + b * v2.1 + c * v3.1 ∧
    pt.2 = a * v1.2 + b * v2.2 + c * v3.2

/-- Point `pt` lies on the closed segment from `a` to `b`. -/
def onSegment (pt a b : Pix) : Prop :=
  ∃ t : ℚ, 0 ≤ t ∧ t ≤ 1 ∧
    pt.1 = a.1 + t * (b.1 - a.1) ∧ pt.2 = a.2 + t * (b.2 - a.2)

/-- Point `pt` lies exactly on one of the three edges of triangle `(v1, v2, v3)`. -/
def onEdge (pt v1 v2 v3 : Pix) : Prop :=
  onSegment pt v1 v2 ∨ onSegment pt v2 v3 ∨ onSegment pt v3 v1

/-- A 3D point (`cv::Point3f` / `gtsam::Point3`) with exact coordinates. -/
structure V3 where
  x : ℚ
  y : ℚ
  z : ℚ
deriving DecidableEq, Repr

/-- Pinhole intrinsics `gtsam::Cal3_S2(fx, fy, 0.0, u0, v0)`; the code always
constructs it with zero skew (MeshOptimization.cpp lines 134-139, 179-183). -/
structure Cal where
  fx : ℚ
  fy : ℚ
  u0 : ℚ
  v0 : ℚ
deriving DecidableEq, Repr

/-- A rigid pose (`gtsam::Pose3`): rotation given by its three rows plus a
translation. -/
structure Pose where
  r1 : V3
  r2 : V3
  r3 : V3
  t : V3
deriving DecidableEq, Repr

/-- Embedding of `gtsam::Pose3::transformTo`: maps a world point into the local frame,
`R.transpose() * (p - t)`.  With `r1, r2, r3` the rows of `R`, the `i`-th
output coordinate dots the `i`-th column of `R` with `p - t`. -/
def Pose.transformTo (P : Pose) (p : V3) : V3 :=
  let dx := p.x - P.t.x
  let dy := p.y - P.t.y
  let dz := p.z - P.t.z
  ⟨P.r1.x * dx + P.r2.x * dy + P.r3.x * dz,
   P.r1.y * dx + P.r2.y * dy + P.r3.y * dz,
   P.r1.z * dx + P.r2.z * dy + P.r3.z * dz⟩

/-- The identity pose. -/
def identityPose : Pose :=
  ⟨⟨1, 0, 0⟩, ⟨0, 1, 0⟩, ⟨0, 0, 1⟩, ⟨0, 0, 0⟩⟩

/-- Embedding of `MeshOptimization::generatePixelFromLandmarkGivenCamera` (lines 645-655):
`pixel = K * extrinsics.transformTo(lmk)` followed by the perspective
division `(pixel.x / pixel.z, pixel.y / pixel.z)`.  The source performs no
depth check whatsoever: it divides and returns unconditionally. -/
def generatePixelFromLandmarkGivenCamera (lmk : V3) (ext : Pose) (K : Cal) :
    Pix :=
  let q := ext.transformTo lmk
  ((K.fx * q.x + K.u0 * q.z) / q.z, (K.fy * q.y + K.v0 * q.z) / q.z)

/-- The projection as the specification describes it (spec section 4.1):
"transforms a 3D point from world/body frame into camera frame, divides by
depth (fails with `DegenerateProjection` if depth <= 0), returns pixel
coordinates".  Stated here to compare the code against the spec; `none`
plays the role of the `DegenerateProjection` failure. -/
def projectChecked (lmk : V3) (ext : Pose) (K : Cal) : Option Pix :=
  let q := ext.transformTo lmk
  if 0 < q.z then
    some ((K.fx * q.x + K.u0 * q.z) / q.z, (K.fy * q.y + K.v0 * q.z) / q.z)
  else none

/-- Embedding of `gtsam::Cal3_S2::calibrate` on the homogeneous pixel `(u, v, 1)` used at
MeshOptimization.cpp line 662: multiplication by the inverse calibration
matrix, which with zero skew is `((u - u0)/fx, (v - v0)/fy, 1)`. -/
def calibrate (K : Cal) (px : Pix) : V3 :=
  ⟨(px.1 - K.u0) / K.fx, (px.2 - K.v0) / K.fy, 1⟩

/-- A 3D vector with real coordinates; needed exactly where the source
leaves rational arithmetic (`std::sqrt` / `normalized()`). -/
@[ext]
structure V3R where
  x : ℝ
  y : ℝ
  z : ℝ

/-- Embed an exact point into real coordinates. -/
def V3.toR (v : V3) : V3R := ⟨(v.x : ℝ), (v.y : ℝ), (v.z : ℝ)⟩

/-- Euclidean norm of a real 3-vector (`gtsam::Point3::norm`,
`std::sqrt(lmk.dot(lmk))`). -/
noncomputable def V3R.norm (v : V3R) : ℝ :=
  Real.sqrt (v.x ^ 2 + v.y ^ 2 + v.z ^ 2)

/-- Scalar multiplication on real 3-vectors. -/
noncomputable def V3R.smul (a : ℝ) (v : V3R) : V3R := ⟨a * v.x, a * v.y, a * v.z⟩

/-- Embedding of `gtsam::Point3::normalized()`: divide by the Euclidean norm. -/
noncomputable def V3R.normalized (v : V3R) : V3R := V3R.smul (1 / v.norm) v

/-- Embedding of `MeshOptimization::getBearingVectorFrom2DPixel` (lines 657-669):
calibrate the homogeneous pixel and normalize the result to unit length. -/
noncomputable def getBearingVectorFrom2DPixel (K : Cal) (px : Pix) : V3R :=
  (calibrate K px).toR.normalized

/-- One triangle of the 2D mesh: the three vertex pixels
(`polygon.at(k).getVertexPosition()`) together with the three vertex ids
(`getVtxIdForLmkId`, maintained by `Mesh2D` outside this translation unit). -/
structure Tri where
  p0 : Pix
  p1 : Pix
  p2 : Pix
  v0 : ℕ
  v1 : ℕ
  v2 : ℕ
deriving DecidableEq, Repr

/-- The inner scan of `collectTriangleDataPoints` (lines 152-165): triangles
are visited in mesh-storage order and the scan stops at the first triangle
whose 2D polygon contains the pixel (`break`). -/
def firstContaining (mesh : List Tri) (px : Pix) : Option ℕ :=
  match mesh with
  | [] => none
  | t :: ts =>
    if pointInTriangle px t.p0 t.p1 t.p2 then some 0
    else (firstContaining ts px).map (· + 1)

/-- The correspondence tables built by `collectTriangleDataPoints`: per
triangle index, the list of (3D sample, projected pixel) pairs (`corresp`
and `pixel_corresp`, zipped), plus `number_of_valid_datapoints`. -/
structure AssocState where
  corresp : List (List (V3 × Pix))
  numValid : ℕ
deriving DecidableEq, Repr

/-- Processing of one point-cloud sample inside
`collectTriangleDataPoints` (lines 125-165): project it to a pixel with the
(frozen, see `solveOptimalMeshAssoc`) intrinsics, assign it to the first
containing triangle, or silently drop it. -/
def collectStep (ext : Pose) (K : Cal) (mesh : List Tri) (st : AssocState)
    (lmk : V3) : AssocState :=
  match firstContaining mesh
      (generatePixelFromLandmarkGivenCamera lmk ext K) with
  | some k =>
      { corresp := st.corresp.set k (st.corresp.getD k [] ++
          [(lmk, generatePixelFromLandmarkGivenCamera lmk ext K)]),
        numValid := st.numValid + 1 }
  | none => st

/-- Embedding of `MeshOptimization::collectTriangleDataPoints` (lines 115-167): fold
`collectStep` over the point cloud in order, starting from empty tables. -/
def collectTriangleDataPoints (cloud : List V3) (mesh : List Tri)
    (ext : Pose) (K : Cal) : AssocState :=
  cloud.foldl (collectStep ext K mesh) ⟨mesh.map (fun _ => []), 0⟩

/-- The three per-call inputs of `solveOptimalMesh`. -/
structure SolveInput where
  cloud : List V3
  mesh : List Tri
  ext : Pose
  K : Cal
deriving DecidableEq, Repr

/-- Observable outcome of the input-validation and data-association phase of
`solveOptimalMesh`: the entry `CHECK`s (lines 173-177), then the
post-association `CHECK_GT(number_of_valid_datapoints, 3u)` and
`CHECK_GT(corresp.size(), 0u)` (lines 208-209); a failed `CHECK` aborts the
call producing no mesh. -/
inductive AssocOutcome
  | invalidInput
  | insufficientData
  | proceeds (corresp : List (List (V3 × Pix))) (numValid : ℕ) (usedK : Cal)
deriving DecidableEq, Repr

/-- The association phase of `MeshOptimization::solveOptimalMesh` with its
`static const gtsam::Cal3_S2 gtsam_intrinsics(camera_params...)` modelled
explicitly: the statics at lines 134-139 and 179-183 are initialized from
the camera parameters of the FIRST invocation that reaches them and keep
that value for every later invocation of the process.  The state `st` is
`none` before the first call and `some frozen` afterwards; the intrinsics
actually used are `st.getD inp.K`. -/
def solveOptimalMeshAssoc (st : Option Cal) (inp : SolveInput) :
    Option Cal × AssocOutcome :=
  if inp.mesh.length = 0 ∨ inp.cloud.length ≤ 3 then
    (st, AssocOutcome.invalidInput)
  else
    let used := st.getD inp.K
    let A := collectTriangleDataPoints inp.cloud inp.mesh inp.ext used
    (some used,
      if A.numValid ≤ 3 ∨ A.corresp.all List.isEmpty then
        AssocOutcome.insufficientData
      else
        AssocOutcome.proceeds A.corresp A.numValid used)

/-- Determinant of the 3×3 matrix with columns `c0, c1, c2`. -/
noncomputable def det3 (c0 c1 c2 : V3R) : ℝ :=
  c0.x * (c1.y * c2.z - c1.z * c2.y) - c1.x * (c0.y * c2.z - c0.z * c2.y) +
    c2.x * (c0.y * c1.z - c0.z * c1.y)

/-- Embedding of `cv::solve(A, b, y)` for the square system whose columns are the three
bearing vectors (lines 356-370): Cramer's rule.  On a singular system the
OpenCV call reports failure and leaves zeros; here the division-by-zero
convention of `ℝ` yields the same zero vector, and the code ignores the
return flag anyway. -/
noncomputable def solve3 (c0 c1 c2 b : V3R) : V3R :=
  ⟨det3 b c1 c2 / det3 c0 c1 c2,
   det3 c0 b c2 / det3 c0 c1 c2,
   det3 c0 c1 b / det3 c0 c1 c2⟩

/-- Accumulator of the per-triangle loop under the
`MeshOptimizerType::kDisconnectedMesh` strategy: the rows of the local `Y`
matrices and the polygons of the reconstructed mesh
(vertex id, 3D position). -/
structure DisconnectedState where
  yRows : List V3R
  mesh3 : List (List (ℕ × V3R))

/-- One iteration of the triangle loop of `solveOptimalMesh`
(lines 240-446) under the Disconnected strategy.  A triangle with fewer
than 3 associated samples is skipped (line 298).  Otherwise a `y`-row is
solved per sample (lines 356-388) and appended to `Y`.  The per-triangle
reconstruction block at lines 410-444 is UNREACHABLE in the source: it sits
inside the `switch (mesh_optimizer_type_)` statement after the closing brace
of the `default:` case, carries no `case` label, and every case above it
ends in `break` — so control can never reach it and no polygon is ever added
to the reconstructed mesh here. -/
noncomputable def processTriDisconnected (K : Cal) (st : DisconnectedState)
    (t : Tri) (samples : List (V3 × Pix)) : DisconnectedState :=
  if samples.length < 3 then st
  else
    let b0 := getBearingVectorFrom2DPixel K t.p0
    let b1 := getBearingVectorFrom2DPixel K t.p1
    let b2 := getBearingVectorFrom2DPixel K t.p2
    { yRows := st.yRows ++ samples.map (fun s => solve3 b0 b1 b2 s.1.toR),
      mesh3 := st.mesh3 }

/-- The triangle loop under the Disconnected strategy, folded over the
triangles paired with their associated samples. -/
noncomputable def disconnectedFold (K : Cal)
    (l : List (Tri × List (V3 × Pix))) (init : DisconnectedState) :
    DisconnectedState :=
  l.foldl (fun st p => processTriDisconnected K st p.1 p.2) init

/-- Observable outcome of a full `solveOptimalMesh` call under the
Disconnected strategy; `output` carries the polygons of
`output->optimized_mesh_3d`. -/
inductive DisconnectedOutcome
  | invalidInput
  | insufficientData
  | output (mesh3 : List (List (ℕ × V3R)))

/-- Full `MeshOptimization::solveOptimalMesh` under
`MeshOptimizerType::kDisconnectedMesh`: validation, association (with the
frozen static intrinsics), the triangle loop, then — since
`case kDisconnectedMesh` of the final switch does nothing (lines 619-622) —
the mesh accumulated by the loop is returned as is. -/
noncomputable def solveOptimalMeshDisconnected (st : Option Cal)
    (inp : SolveInput) : Option Cal × DisconnectedOutcome :=
  if inp.mesh.length = 0 ∨ inp.cloud.length ≤ 3 then
    (st, DisconnectedOutcome.invalidInput)
  else
    let used := st.getD inp.K
    let A := collectTriangleDataPoints inp.cloud inp.mesh inp.ext used
    (some used,
      if A.numValid ≤ 3 ∨ A.corresp.all List.isEmpty then
        DisconnectedOutcome.insufficientData
      else
        DisconnectedOutcome.output
          (disconnectedFold used (inp.mesh.zip A.corresp) ⟨[], []⟩).mesh3)

/-- A row of the global matrix `vtx_ids_to_ys` of the Connected strategy
(lines 373-380): the row is non-zero exactly in the three columns given by
the triangle's vertex ids, holding the solved `y` values. -/
structure RowEntry where
  v0 : ℕ
  v1 : ℕ
  v2 : ℕ
  y : V3R

/-- One iteration of the triangle loop under
`MeshOptimizerType::kConnectedMesh`: skip the triangle when it has fewer
than 3 associated samples (line 298), otherwise write one row per sample
into the global matrix at row `n_datapoint` (append). -/
noncomputable def processTriConnected (K : Cal) (rows : List RowEntry)
    (t : Tri) (samples : List (V3 × Pix)) : List RowEntry :=
  if samples.length < 3 then rows
  else
    rows ++ samples.map (fun s =>
      ⟨t.v0, t.v1, t.v2,
        solve3 (getBearingVectorFrom2DPixel K t.p0)
          (getBearingVectorFrom2DPixel K t.p1)
          (getBearingVectorFrom2DPixel K t.p2) s.1.toR⟩)

/-- The triangle loop under the Connected strategy. -/
noncomputable def connectedFold (K : Cal)
    (l : List (Tri × List (V3 × Pix))) (init : List RowEntry) :
    List RowEntry :=
  l.foldl (fun rows p => processTriConnected K rows p.1 p.2) init

/-- Modelled from the spec: `barycentricCoordinates` lives in
`mesh/MeshUtils.h`, which is not under `src/`; per spec section 4.4 it
computes the barycentric weights of the pixel with respect to the
triangle's three vertex pixels (possibly negative when the pixel falls
numerically outside; the boolean "outside" flag it also returns is only
logged by the caller and is not modelled). -/
def barycentricCoordinates (a b c q : Pix) : ℚ × ℚ × ℚ :=
  let d := orient a b c
  (orient q b c / d, orient a q c / d, orient a b q / d)

/-- A ternary `gtsam::JacobianFactor` built at lines 323-349: keys are the
triangle's vertex ids, the 1×1 blocks are the barycentric weights, the
right-hand side is the measured inverse depth `1/std::sqrt(lmk.dot(lmk))`
and the noise sigma is the fixed `1.0`. -/
structure TernaryFactor where
  i1 : ℕ
  i2 : ℕ
  i3 : ℕ
  a1 : ℚ
  a2 : ℚ
  a3 : ℚ
  rhs : ℝ
  sigma : ℚ

/-- One iteration of the triangle loop under
`MeshOptimizerType::kGtsamMesh` (lines 305-353): skip the triangle when it
has fewer than 3 associated samples (line 298), otherwise add one ternary
factor per associated sample. -/
noncomputable def processTriGtsam (fs : List TernaryFactor) (t : Tri)
    (samples : List (V3 × Pix)) : List TernaryFactor :=
  if samples.length < 3 then fs
  else
    fs ++ samples.map (fun s =>
      let w := barycentricCoordinates t.p0 t.p1 t.p2 s.2
      ⟨t.v0, t.v1, t.v2, w.1, w.2.1, w.2.2, 1 / s.1.toR.norm, 1⟩)

/-- The factor-building triangle loop under the Factor-Graph strategy. -/
noncomputable def gtsamFold (l : List (Tri × List (V3 × Pix)))
    (init : List TernaryFactor) : List TernaryFactor :=
  l.foldl (fun fs p => processTriGtsam fs p.1 p.2) init

/-- A binary spring `gtsam::JacobianFactor` built at lines 471-495:
coefficients `kSpringConstant = 1.0` and `-1.0`, rest length `0`, noise
sigma `0.1`. -/
structure SpringFactor where
  i : ℕ
  j : ℕ
  a1 : ℚ
  a2 : ℚ
  rhs : ℚ
  sigma : ℚ
deriving DecidableEq, Repr

/-- The spring-factor construction of the Factor-Graph strategy
(lines 479-495): for every row `i` of the adjacency matrix, scan columns
`j < i` (the inner loop breaks as soon as `j = i`, so only the strict lower
triangle is visited) and add one spring factor per adjacent pair. -/
def springFactors (n : ℕ) (adj : ℕ → ℕ → Bool) : List SpringFactor :=
  ((List.range n).map (fun i =>
    ((List.range i).filter (fun j => adj i j)).map
      (fun j => SpringFactor.mk i j 1 (-1) 0 (1 / 10)))).flatten

/-- Concrete camera A: unit focal lengths, principal point at the origin. -/
def exCalA : Cal := ⟨1, 1, 0, 0⟩

/-- Concrete camera B: unit focal lengths, principal point at `(100, 0)`. -/
def exCalB : Cal := ⟨1, 1, 100, 0⟩

/-- Concrete triangle with pixel vertices `(0,0), (10,0), (0,10)`. -/
def exTriA : Tri := ⟨(0, 0), (10, 0), (0, 10), 0, 1, 2⟩

/-- Concrete triangle with pixel vertices `(100,0), (110,0), (100,10)`. -/
def exTriB : Tri := ⟨(100, 0), (110, 0), (100, 10), 0, 1, 2⟩

/-- A point cloud of four points at depth 1. -/
def exCloud : List V3 := [⟨1, 1, 1⟩, ⟨2, 1, 1⟩, ⟨1, 2, 1⟩, ⟨3, 1, 1⟩]

/-- Input A: `exCloud` with camera A against triangle A — with camera A's
intrinsics all four samples project inside triangle A. -/
def exInputA : SolveInput := ⟨exCloud, [exTriA], identityPose, exCalA⟩

/-- Input B: `exCloud` with camera B against triangle B — with camera B's
intrinsics all four samples project inside triangle B. -/
def exInputB : SolveInput := ⟨exCloud, [exTriB], identityPose, exCalB⟩

end KimeraVIO

namespace KimeraVIO

theorem sign_eq_orient (p a b : Pix) : sign p a b = orient a b p := by
  unfold sign orient; ring

theorem orient_cycle (a b c : Pix) : orient a b c = orient b c a := by
  unfold orient; ring

/-- Splitting identity: the three edge orientations of a query point sum to
the orientation of the triangle itself. -/
theorem orient_sum (v1 v2 v3 pt : Pix) :
    orient v1 v2 pt + orient v2 v3 pt + orient v3 v1 pt = orient v1 v2 v3 := by
  unfold orient; ring

/-- Affine evaluation: the edge orientations of a barycentric combination are
the weights scaled by the triangle orientation. -/
theorem orient_of_combo (v1 v2 v3 pt : Pix) (a b c : ℚ)
    (hsum : a + b + c = 1)
    (hx : pt.1 = a * v1.1 + b * v2.1 + c * v3.1)
    (hy : pt.2 = a * v1.2 + b * v2.2 + c * v3.2) :
    orient v1 v2 pt = c * orient v1 v2 v3 ∧
    orient v2 v3 pt = a * orient v1 v2 v3 ∧
    orient v3 v1 pt = b * orient v1 v2 v3 := by
  have hc : c = 1 - a - b := by linarith
  subst hc
  refine ⟨?_, ?_, ?_⟩ <;> · unfold orient; rw [hx, hy]; ring

/-- Boolean unfolding of `pointInTriangle` into a proposition about the three
edge signs. -/
theorem pointInTriangle_iff_not_mixed (pt v1 v2 v3 : Pix) :
    pointInTriangle pt v1 v2 v3 = true ↔
      ¬((sign pt v1 v2 < 0 ∨ sign pt v2 v3 < 0 ∨ sign pt v3 v1 < 0) ∧
        (0 < sign pt v1 v2 ∨ 0 < sign pt v2 v3 ∨ 0 < sign pt v3 v1)) := by
  unfold pointInTriangle
  rw [Bool.not_eq_true', Bool.eq_false_iff]
  simp only [ne_eq, Bool.and_eq_true, decide_eq_true_eq]

/-- C4.  `pointInTriangle` returns true iff the three edge signs are not of
mixed sign; it accepts every point strictly inside, rejects every point
strictly outside a non-degenerate triangle, and accepts every point on an
edge (inclusive boundary). -/
theorem C4_pointInTriangle_sign_classifier (pt v1 v2 v3 : Pix) :
    (pointInTriangle pt v1 v2 v3 = true ↔
      ((0 ≤ sign pt v1 v2 ∧ 0 ≤ sign pt v2 v3 ∧ 0 ≤ sign pt v3 v1) ∨
       (sign pt v1 v2 ≤ 0 ∧ sign pt v2 v3 ≤ 0 ∧ sign pt v3 v1 ≤ 0))) ∧
    (strictlyInside pt v1 v2 v3 → pointInTriangle pt v1 v2 v3 = true) ∧
    (orient v1 v2 v3 ≠ 0 → ¬inClosedTriangle pt v1 v2 v3 →
      pointInTriangle pt v1 v2 v3 = false) ∧
    (onEdge pt v1 v2 v3 → pointInTriangle pt v1 v2 v3 = true) := by
  have base := pointInTriangle_iff_not_mixed pt v1 v2 v3
  have hiff : pointInTriangle pt v1 v2 v3 = true ↔
      ((0 ≤ sign pt v1 v2 ∧ 0 ≤ sign pt v2 v3 ∧ 0 ≤ sign pt v3 v1) ∨
       (sign pt v1 v2 ≤ 0 ∧ sign pt v2 v3 ≤ 0 ∧ sign pt v3 v1 ≤ 0)) := by
    rw [base]
    constructor
    · intro h
      rcases le_or_lt 0 (sign pt v1 v2) with h1 | h1
      · rcases le_or_lt 0 (sign pt v2 v3) with h2 | h2
        · rcases le_or_lt 0 (sign pt v3 v1) with h3 | h3
          · exact Or.inl ⟨h1, h2, h3⟩
          · -- d3 < 0: then no sign may be positive
            refine Or.inr ⟨?_, ?_, le_of_lt h3⟩ <;>
              · by_contra hpos
                push_neg at hpos
                exact h ⟨Or.inr (Or.inr h3), by tauto⟩
        · refine Or.inr ⟨?_, le_of_lt h2, ?_⟩ <;>
            · by_contra hpos
              push_neg at hpos
              exact h ⟨Or.inr (Or.inl h2), by tauto⟩
      · refine Or.inr ⟨le_of_lt h1, ?_, ?_⟩ <;>
          · by_contra hpos
            push_neg at hpos
            exact h ⟨Or.inl h1, by tauto⟩
    · rintro (⟨h1, h2, h3⟩ | ⟨h1, h2, h3⟩) ⟨hneg, hpos⟩
      · rcases hneg with h | h | h <;> linarith
      · rcases hpos with h | h | h <;> linarith
  refine ⟨hiff, ?_, ?_, ?_⟩
  · -- strictly inside implies accepted
    rintro ⟨a, b, c, ha, hb, hc, hsum, hx, hy⟩
    obtain ⟨h1, h2, h3⟩ := orient_of_combo v1 v2 v3 pt a b c hsum hx hy
    rw [hiff, sign_eq_orient, sign_eq_orient, sign_eq_orient, h1, h2, h3]
    rcases lt_trichotomy (orient v1 v2 v3) 0 with hD | hD | hD
    · exact Or.inr ⟨by nlinarith, by nlinarith, by nlinarith⟩
    · exact Or.inl ⟨by nlinarith, by nlinarith, by nlinarith⟩
    · exact Or.inl ⟨by nlinarith, by nlinarith, by nlinarith⟩
  · -- strictly outside (of a non-degenerate triangle) implies rejected
    intro hD hout
    by_contra hacc
    rw [Bool.not_eq_false, hiff, sign_eq_orient, sign_eq_orient,
      sign_eq_orient] at hacc
    apply hout
    have hsplit := orient_sum v1 v2 v3 pt
    -- reconstruct barycentric coordinates from the edge orientations
    refine ⟨orient v2 v3 pt / orient v1 v2 v3,
            orient v3 v1 pt / orient v1 v2 v3,
            orient v1 v2 pt / orient v1 v2 v3, ?_, ?_, ?_, ?_, ?_, ?_⟩
    · rcases hacc with ⟨h1, h2, h3⟩ | ⟨h1, h2, h3⟩
      · have : 0 < orient v1 v2 v3 := by
          rcases lt_or_eq_of_le (by linarith : (0:ℚ) ≤ orient v1 v2 v3) with h | h
          · exact h
          · exact absurd h.symm hD
        positivity
      · have hDneg : orient v1 v2 v3 < 0 := by
          rcases lt_or_eq_of_le (by linarith : orient v1 v2 v3 ≤ 0) with h | h
          · exact h
          · exact absurd h hD
        exact div_nonneg_of_nonpos h2 (le_of_lt hDneg)
    · rcases hacc with ⟨h1, h2, h3⟩ | ⟨h1, h2, h3⟩
      · have : 0 < orient v1 v2 v3 := by
          rcases lt_or_eq_of_le (by linarith : (0:ℚ) ≤ orient v1 v2 v3) with h | h
          · exact h
          · exact absurd h.symm hD
        positivity
      · have hDneg : orient v1 v2 v3 < 0 := by
          rcases lt_or_eq_of_le (by linarith : orient v1 v2 v3 ≤ 0) with h | h
          · exact h
          · exact absurd h hD
        exact div_nonneg_of_nonpos h3 (le_of_lt hDneg)
    · rcases hacc with ⟨h1, h2, h3⟩ | ⟨h1, h2, h3⟩
      · have : 0 < orient v1 v2 v3 := by
          rcases lt_or_eq_of_le (by linarith : (0:ℚ) ≤ orient v1 v2 v3) with h | h
          · exact h
          · exact absurd h.symm hD
        positivity
      · have hDneg : orient v1 v2 v3 < 0 := by
          rcases lt_or_eq_of_le (by linarith : orient v1 v2 v3 ≤ 0) with h | h
          · exact h
          · exact absurd h hD
        exact div_nonneg_of_nonpos h1 (le_of_lt hDneg)
    · have hsum : orient v2 v3 pt + orient v3 v1 pt + orient v1 v2 pt =
          orient v1 v2 v3 := by unfold orient; ring
      rw [div_add_div_same, div_add_div_same, hsum, div_self hD]
    · -- x-coordinate reconstruction
      have key : orient v2 v3 pt * v1.1 + orient v3 v1 pt * v2.1 +
          orient v1 v2 pt * v3.1 = orient v1 v2 v3 * pt.1 := by
        unfold orient; ring
      rw [div_mul_eq_mul_div, div_mul_eq_mul_div, div_mul_eq_mul_div,
        div_add_div_same, div_add_div_same, key, mul_div_cancel_left₀ _ hD]
    · have key : orient v2 v3 pt * v1.2 + orient v3 v1 pt * v2.2 +
          orient v1 v2 pt * v3.2 = orient v1 v2 v3 * pt.2 := by
        unfold orient; ring
      rw [div_mul_eq_mul_div, div_mul_eq_mul_div, div_mul_eq_mul_div,
        div_add_div_same, div_add_div_same, key, mul_div_cancel_left₀ _ hD]
  · -- points exactly on an edge are accepted
    intro hedge
    have main : ∀ a b c : ℚ, 0 ≤ a → 0 ≤ b → 0 ≤ c → a + b + c = 1 →
        pt.1 = a * v1.1 + b * v2.1 + c * v3.1 →
        pt.2 = a * v1.2 + b * v2.2 + c * v3.2 →
        pointInTriangle pt v1 v2 v3 = true := by
      intro a b c ha hb hc hsum hx hy
      obtain ⟨h1, h2, h3⟩ := orient_of_combo v1 v2 v3 pt a b c hsum hx hy
      rw [hiff, sign_eq_orient, sign_eq_orient, sign_eq_orient, h1, h2, h3]
      rcases le_or_lt 0 (orient v1 v2 v3) with hD | hD
      · exact Or.inl ⟨by positivity, by positivity, by positivity⟩
      · exact Or.inr ⟨mul_nonpos_of_nonneg_of_nonpos hc (le_of_lt hD),
          mul_nonpos_of_nonneg_of_nonpos ha (le_of_lt hD),
          mul_nonpos_of_nonneg_of_nonpos hb (le_of_lt hD)⟩
    rcases hedge with ⟨t, ht0, ht1, hx, hy⟩ | ⟨t, ht0, ht1, hx, hy⟩ |
      ⟨t, ht0, ht1, hx, hy⟩
    · exact main (1 - t) t 0 (by linarith) ht0 le_rfl (by ring)
        (by rw [hx]; ring) (by rw [hy]; ring)
    · exact main 0 (1 - t) t le_rfl (by linarith) ht0 (by ring)
        (by rw [hx]; ring) (by rw [hy]; ring)
    · exact main t 0 (1 - t) ht0 le_rfl (by linarith) (by ring)
        (by rw [hx]; ring) (by rw [hy]; ring)

/-- C6 counterexample.  At the landmark `(0, 0, -1)` (camera-frame depth
`-1 ≤ 0`, identity extrinsics, unit intrinsics) the spec-side checked
projection fails, but `generatePixelFromLandmarkGivenCamera` happily returns
the pixel `(0, 0)`: the code contains no depth check and never fails. -/
theorem C6_counterexample :
    (identityPose.transformTo ⟨0, 0, -1⟩).z ≤ 0 ∧
    projectChecked ⟨0, 0, -1⟩ identityPose ⟨1, 1, 0, 0⟩ = none ∧
    generatePixelFromLandmarkGivenCamera ⟨0, 0, -1⟩ identityPose ⟨1, 1, 0, 0⟩
      = ((0 : ℚ), (0 : ℚ)) := by
  refine ⟨by norm_num [identityPose, Pose.transformTo], ?_, ?_⟩
  · norm_num [projectChecked, identityPose, Pose.transformTo]
  · norm_num [generatePixelFromLandmarkGivenCamera, identityPose,
      Pose.transformTo]

/-- C6 amended.  `generatePixelFromLandmarkGivenCamera` transforms the point
into the camera frame and divides by its depth coordinate, returning a pixel
unconditionally; it performs no depth check.  It agrees with the spec's
checked projection exactly on the inputs of positive camera-frame depth
(where the returned pixel is the familiar `f * x / z + principal point`),
and on depth `≤ 0` the checked projection fails while the code still
returns a pixel. -/
theorem C6_project_unchecked (lmk : V3) (ext : Pose) (K : Cal) :
    projectChecked lmk ext K =
      (if 0 < (ext.transformTo lmk).z
       then some (generatePixelFromLandmarkGivenCamera lmk ext K)
       else none) ∧
    (0 < (ext.transformTo lmk).z →
      generatePixelFromLandmarkGivenCamera lmk ext K =
        (K.fx * (ext.transformTo lmk).x / (ext.transformTo lmk).z + K.u0,
         K.fy * (ext.transformTo lmk).y / (ext.transformTo lmk).z + K.v0)) := by
  constructor
  · rfl
  · intro hz
    have hz' : (ext.transformTo lmk).z ≠ 0 := ne_of_gt hz
    unfold generatePixelFromLandmarkGivenCamera
    rw [Prod.mk.injEq]
    constructor <;> · field_simp; try ring

/-- Witness for the C6 amended theorem at a point of positive depth. -/
theorem C6_project_unchecked_witness :
    generatePixelFromLandmarkGivenCamera ⟨3, 4, 2⟩ identityPose ⟨1, 1, 0, 0⟩
      = ((1 : ℚ) * ((identityPose.transformTo ⟨3, 4, 2⟩).x) /
          ((identityPose.transformTo ⟨3, 4, 2⟩).z) + 0,
         (1 : ℚ) * ((identityPose.transformTo ⟨3, 4, 2⟩).y) /
          ((identityPose.transformTo ⟨3, 4, 2⟩).z) + 0) :=
  (C6_project_unchecked ⟨3, 4, 2⟩ identityPose ⟨1, 1, 0, 0⟩).2
    (by norm_num [identityPose, Pose.transformTo])

theorem V3R.norm_smul (a : ℝ) (v : V3R) :
    (V3R.smul a v).norm = |a| * v.norm := by
  unfold V3R.smul V3R.norm
  rw [show (a * v.x) ^ 2 + (a * v.y) ^ 2 + (a * v.z) ^ 2 =
      a ^ 2 * (v.x ^ 2 + v.y ^ 2 + v.z ^ 2) by ring,
    Real.sqrt_mul (sq_nonneg a), Real.sqrt_sq_eq_abs]

theorem V3R.smul_smul (a b : ℝ) (v : V3R) :
    V3R.smul a (V3R.smul b v) = V3R.smul (a * b) v := by
  unfold V3R.smul
  ext <;> · simp only; ring

theorem V3R.one_smul (v : V3R) : V3R.smul 1 v = v := by
  unfold V3R.smul
  ext <;> simp

theorem V3R.norm_pos_of_z_pos (v : V3R) (hz : 0 < v.z) : 0 < v.norm := by
  unfold V3R.norm
  apply Real.sqrt_pos.mpr
  nlinarith [sq_nonneg v.x, sq_nonneg v.y]

/-- C9.  Back-projecting the projection of any point of positive
camera-frame depth yields a unit bearing vector that is direction-parallel
to the camera-frame point: the point is recovered as its range times the
bearing vector. -/
theorem C9_backprojection_direction (lmk : V3) (ext : Pose) (K : Cal)
    (hfx : K.fx ≠ 0) (hfy : K.fy ≠ 0)
    (hz : 0 < (ext.transformTo lmk).z) :
    (getBearingVectorFrom2DPixel K
        (generatePixelFromLandmarkGivenCamera lmk ext K)).norm = 1 ∧
    V3R.smul (ext.transformTo lmk).toR.norm
        (getBearingVectorFrom2DPixel K
          (generatePixelFromLandmarkGivenCamera lmk ext K)) =
      (ext.transformTo lmk).toR := by
  have hzQ : (ext.transformTo lmk).z ≠ 0 := ne_of_gt hz
  -- the calibrated homogeneous pixel is the camera-frame point divided by z
  have hcal : calibrate K (generatePixelFromLandmarkGivenCamera lmk ext K) =
      ⟨(ext.transformTo lmk).x / (ext.transformTo lmk).z,
       (ext.transformTo lmk).y / (ext.transformTo lmk).z, 1⟩ := by
    unfold calibrate generatePixelFromLandmarkGivenCamera
    simp only
    congr 1
    · field_simp
      ring
    · field_simp
      ring
  have hzR : (0 : ℝ) < ((ext.transformTo lmk).z : ℝ) := by exact_mod_cast hz
  have hzR' : ((ext.transformTo lmk).z : ℝ) ≠ 0 := ne_of_gt hzR
  have hcalR : (calibrate K
        (generatePixelFromLandmarkGivenCamera lmk ext K)).toR =
      V3R.smul (1 / ((ext.transformTo lmk).z : ℝ))
        (ext.transformTo lmk).toR := by
    rw [hcal]
    unfold V3.toR V3R.smul
    refine V3R.ext ?_ ?_ ?_ <;> simp only
    · push_cast
      field_simp
    · push_cast
      field_simp
    · field_simp
  have hzR2 : 0 < (ext.transformTo lmk).toR.z := hzR
  have hn : 0 < (ext.transformTo lmk).toR.norm :=
    V3R.norm_pos_of_z_pos _ hzR2
  have hn' : (ext.transformTo lmk).toR.norm ≠ 0 := ne_of_gt hn
  have hbear : getBearingVectorFrom2DPixel K
      (generatePixelFromLandmarkGivenCamera lmk ext K) =
      V3R.smul (1 / (ext.transformTo lmk).toR.norm)
        (ext.transformTo lmk).toR := by
    unfold getBearingVectorFrom2DPixel V3R.normalized
    rw [hcalR, V3R.norm_smul, V3R.smul_smul]
    congr 1
    rw [abs_of_pos (by positivity)]
    field_simp
    ring
  refine ⟨?_, ?_⟩
  · rw [hbear, V3R.norm_smul, abs_of_pos (by positivity)]
    field_simp
  · rw [hbear, V3R.smul_smul, mul_one_div, div_self hn', V3R.one_smul]

/-- Witness for C9: the point `(0, 0, 1)` under identity extrinsics and unit
intrinsics. -/
theorem C9_backprojection_direction_witness :
    (getBearingVectorFrom2DPixel ⟨1, 1, 0, 0⟩
        (generatePixelFromLandmarkGivenCamera ⟨0, 0, 1⟩ identityPose
          ⟨1, 1, 0, 0⟩)).norm = 1 ∧
    V3R.smul (identityPose.transformTo ⟨0, 0, 1⟩).toR.norm
        (getBearingVectorFrom2DPixel ⟨1, 1, 0, 0⟩
          (generatePixelFromLandmarkGivenCamera ⟨0, 0, 1⟩ identityPose
            ⟨1, 1, 0, 0⟩)) =
      (identityPose.transformTo ⟨0, 0, 1⟩).toR :=
  C9_backprojection_direction ⟨0, 0, 1⟩ identityPose ⟨1, 1, 0, 0⟩
    (by norm_num) (by norm_num)
    (by norm_num [identityPose, Pose.transformTo])

/-- C10.  A fully degenerate triangle whose three vertices coincide has all
three edge signs equal to zero, so `pointInTriangle` classifies it as
containing every query point; consequently, if such a triangle is scanned
first during data association, it captures every projected sample. -/
theorem C10_degenerate_triangle_captures_all (p v : Pix) :
    pointInTriangle p v v v = true ∧
    (∀ (rest : List Tri) (i0 i1 i2 : ℕ),
      firstContaining
        ({ p0 := v, p1 := v, p2 := v, v0 := i0, v1 := i1, v2 := i2 } :: rest)
        p = some 0) := by
  have hs : sign p v v = 0 := by unfold sign; ring
  have hmain : pointInTriangle p v v v = true := by
    rw [pointInTriangle_iff_not_mixed, hs]
    simp
  refine ⟨hmain, ?_⟩
  intro rest i0 i1 i2
  unfold firstContaining
  simp [hmain]

/-- C2 counterexample.  The invocation `exInputA` as the very first call of
the process proceeds past data association (all four samples land in its
triangle), but the same invocation `exInputA` placed after an earlier
invocation with different camera parameters (`exInputB`) aborts with
insufficient data: the `static const` intrinsics frozen by the first call
shift every projected pixel outside the mesh.  The call is therefore not a
pure function of its inputs. -/
theorem C2_counterexample :
    (solveOptimalMeshAssoc none exInputA).2 ≠
      (solveOptimalMeshAssoc (solveOptimalMeshAssoc none exInputB).1
        exInputA).2 := by
  have h1 : (solveOptimalMeshAssoc none exInputA).2 =
      AssocOutcome.proceeds
        [[(⟨1, 1, 1⟩, (1, 1)), (⟨2, 1, 1⟩, (2, 1)), (⟨1, 2, 1⟩, (1, 2)),
          (⟨3, 1, 1⟩, (3, 1))]] 4 exCalA := by
    norm_num [solveOptimalMeshAssoc, collectTriangleDataPoints, collectStep,
      firstContaining, pointInTriangle, sign,
      generatePixelFromLandmarkGivenCamera, identityPose, Pose.transformTo,
      exCalA, exCloud, exTriA, exInputA]
  have h2 : (solveOptimalMeshAssoc (solveOptimalMeshAssoc none exInputB).1
      exInputA).2 = AssocOutcome.insufficientData := by
    norm_num [solveOptimalMeshAssoc, collectTriangleDataPoints, collectStep,
      firstContaining, pointInTriangle, sign,
      generatePixelFromLandmarkGivenCamera, identityPose, Pose.transformTo,
      exCalA, exCalB, exCloud, exTriA, exTriB, exInputA, exInputB]
  rw [h1, h2]
  intro h
  exact AssocOutcome.noConfusion h

/-- C2 amended.  The call is deterministic modulo the frozen static
intrinsics: two invocations with identical inputs that observe the same
static-intrinsics state produce identical outcomes, and in particular
repeating the same invocation later in the same process reproduces the
previous outcome.  (Across different call histories the static state may
differ, and by `C2_counterexample` the outcome then may too.) -/
theorem C2_deterministic_given_static (st st' : Option Cal)
    (inp : SolveInput) (h : st.getD inp.K = st'.getD inp.K) :
    (solveOptimalMeshAssoc st inp).2 = (solveOptimalMeshAssoc st' inp).2 ∧
    (solveOptimalMeshAssoc (solveOptimalMeshAssoc st inp).1 inp).2 =
      (solveOptimalMeshAssoc st inp).2 := by
  constructor
  · by_cases hval : inp.mesh.length = 0 ∨ inp.cloud.length ≤ 3
    · simp only [solveOptimalMeshAssoc, if_pos hval]
    · simp only [solveOptimalMeshAssoc, if_neg hval, h]
  · by_cases hval : inp.mesh.length = 0 ∨ inp.cloud.length ≤ 3
    · simp only [solveOptimalMeshAssoc, if_pos hval]
    · simp only [solveOptimalMeshAssoc, if_neg hval, Option.getD_some]

/-- Witness for C2 amended: repeating `exInputA` from the fresh state is
consistent with running it with its own intrinsics already frozen. -/
theorem C2_deterministic_given_static_witness :
    (solveOptimalMeshAssoc none exInputA).2 =
      (solveOptimalMeshAssoc (some exInputA.K) exInputA).2 ∧
    (solveOptimalMeshAssoc (solveOptimalMeshAssoc none exInputA).1
      exInputA).2 = (solveOptimalMeshAssoc none exInputA).2 :=
  C2_deterministic_given_static none (some exInputA.K) exInputA rfl

theorem collectStep_length (ext : Pose) (K : Cal) (mesh : List Tri)
    (st : AssocState) (lmk : V3) :
    (collectStep ext K mesh st lmk).corresp.length = st.corresp.length := by
  unfold collectStep
  split <;> simp [List.length_set]

theorem collect_foldl_length (ext : Pose) (K : Cal) (mesh : List Tri)
    (cloud : List V3) (init : AssocState) :
    (cloud.foldl (collectStep ext K mesh) init).corresp.length =
      init.corresp.length := by
  induction cloud generalizing init with
  | nil => rfl
  | cons x xs ih => rw [List.foldl_cons, ih, collectStep_length]

theorem firstContaining_lt (mesh : List Tri) (px : Pix) (k : ℕ)
    (h : firstContaining mesh px = some k) : k < mesh.length := by
  induction mesh generalizing k with
  | nil => simp [firstContaining] at h
  | cons t ts ih =>
    rw [firstContaining] at h
    split at h
    · cases h
      simp
    · rw [Option.map_eq_some'] at h
      obtain ⟨a, ha, rfl⟩ := h
      have := ih a ha
      simp only [List.length_cons]
      omega

theorem getD_set_self {α : Type} (l : List (List α)) (k : ℕ) (a : List α)
    (h : k < l.length) : (l.set k a).getD k [] = a := by
  rw [List.getD_eq_getElem?_getD, List.getElem?_set_self h]
  rfl

theorem getD_set_ne {α : Type} (l : List (List α)) (k j : ℕ) (a : List α)
    (h : k ≠ j) : (l.set k a).getD j [] = l.getD j [] := by
  rw [List.getD_eq_getElem?_getD, List.getElem?_set_ne h,
    ← List.getD_eq_getElem?_getD]

/-- Characterization of data association: after folding the point cloud, the
list recorded under triangle `k` consists, in cloud order, of exactly the
samples whose projected pixel has `k` as its first containing triangle. -/
theorem collect_foldl_getD (ext : Pose) (K : Cal) (mesh : List Tri)
    (cloud : List V3) :
    ∀ (init : AssocState) (k : ℕ), k < init.corresp.length →
      (cloud.foldl (collectStep ext K mesh) init).corresp.getD k [] =
        init.corresp.getD k [] ++ cloud.filterMap (fun lmk =>
          if firstContaining mesh
              (generatePixelFromLandmarkGivenCamera lmk ext K) = some k
          then some (lmk, generatePixelFromLandmarkGivenCamera lmk ext K)
          else none) := by
  induction cloud with
  | nil => intro init k hk; simp
  | cons x xs ih =>
    intro init k hk
    rw [List.foldl_cons]
    by_cases hx : firstContaining mesh
        (generatePixelFromLandmarkGivenCamera x ext K) = some k
    · have hfm : List.filterMap (fun lmk =>
          if firstContaining mesh
              (generatePixelFromLandmarkGivenCamera lmk ext K) = some k
          then some (lmk, generatePixelFromLandmarkGivenCamera lmk ext K)
          else none) (x :: xs) =
          (x, generatePixelFromLandmarkGivenCamera x ext K) ::
            List.filterMap (fun lmk =>
              if firstContaining mesh
                  (generatePixelFromLandmarkGivenCamera lmk ext K) = some k
              then some (lmk, generatePixelFromLandmarkGivenCamera lmk ext K)
              else none) xs := by
        rw [List.filterMap_cons]
        rw [if_pos hx]
      have hst : (collectStep ext K mesh init x).corresp.getD k [] =
          init.corresp.getD k [] ++
            [(x, generatePixelFromLandmarkGivenCamera x ext K)] := by
        unfold collectStep
        simp only [hx]
        exact getD_set_self _ _ _ hk
      rw [hfm, ih _ k (by rw [collectStep_length]; exact hk), hst]
      simp only [List.append_assoc, List.singleton_append]
    · have hfm : List.filterMap (fun lmk =>
          if firstContaining mesh
              (generatePixelFromLandmarkGivenCamera lmk ext K) = some k
          then some (lmk, generatePixelFromLandmarkGivenCamera lmk ext K)
          else none) (x :: xs) =
          List.filterMap (fun lmk =>
            if firstContaining mesh
                (generatePixelFromLandmarkGivenCamera lmk ext K) = some k
            then some (lmk, generatePixelFromLandmarkGivenCamera lmk ext K)
            else none) xs := by
        rw [List.filterMap_cons]
        rw [if_neg hx]
      have hst : (collectStep ext K mesh init x).corresp.getD k [] =
          init.corresp.getD k [] := by
        unfold collectStep
        cases hfc : firstContaining mesh
            (generatePixelFromLandmarkGivenCamera x ext K) with
        | none => simp only [hfc]
        | some j =>
          simp only [hfc]
          exact getD_set_ne _ _ _ _ (fun e => hx (e ▸ hfc))
      rw [hfm, ih _ k (by rw [collectStep_length]; exact hk), hst]

theorem sum_map_length_set {α : Type} (l : List (List α)) :
    ∀ (k : ℕ) (a : α), k < l.length →
      ((l.set k (l.getD k [] ++ [a])).map List.length).sum =
        (l.map List.length).sum + 1 := by
  induction l with
  | nil => intro k a h; simp at h
  | cons x xs ih =>
    intro k a h
    cases k with
    | zero =>
      simp only [List.getD_cons_zero, List.set_cons_zero, List.map_cons,
        List.sum_cons, List.length_append, List.length_singleton]
      omega
    | succ k =>
      have hk : k < xs.length := by simpa using h
      simp only [List.getD_cons_succ, List.set_cons_succ, List.map_cons,
        List.sum_cons, ih k a hk]
      omega

/-- The matched-sample counter equals the total number of samples recorded in
the per-triangle tables. -/
theorem collect_foldl_numValid (ext : Pose) (K : Cal) (mesh : List Tri)
    (cloud : List V3) :
    ∀ (init : AssocState),
      init.numValid = (init.corresp.map List.length).sum →
      mesh.length = init.corresp.length →
      (cloud.foldl (collectStep ext K mesh) init).numValid =
        (((cloud.foldl (collectStep ext K mesh) init).corresp).map
          List.length).sum := by
  induction cloud with
  | nil => intro init hinv _; exact hinv
  | cons x xs ih =>
    intro init hinv hlen
    rw [List.foldl_cons]
    refine ih _ ?_ (by rw [collectStep_length]; exact hlen)
    unfold collectStep
    cases hfc : firstContaining mesh
        (generatePixelFromLandmarkGivenCamera x ext K) with
    | none => simpa using hinv
    | some k =>
      simp only [hfc]
      have hklt : k < init.corresp.length :=
        hlen ▸ firstContaining_lt _ _ _ hfc
      rw [sum_map_length_set _ _ _ hklt, hinv]

/-- The first-containing-triangle scan returns `some k` exactly when triangle
`k` contains the pixel and no earlier triangle does. -/
theorem firstContaining_eq_some_iff (mesh : List Tri) (px : Pix) :
    ∀ k : ℕ, firstContaining mesh px = some k ↔
      ∃ hk : k < mesh.length,
        pointInTriangle px (mesh.get ⟨k, hk⟩).p0 (mesh.get ⟨k, hk⟩).p1
          (mesh.get ⟨k, hk⟩).p2 = true ∧
        ∀ (j : ℕ) (hj : j < k),
          pointInTriangle px (mesh.get ⟨j, hj.trans hk⟩).p0
            (mesh.get ⟨j, hj.trans hk⟩).p1
            (mesh.get ⟨j, hj.trans hk⟩).p2 = false := by
  induction mesh with
  | nil =>
    intro k
    simp [firstContaining]
  | cons t ts ih =>
    intro k
    rw [firstContaining]
    by_cases hpt : pointInTriangle px t.p0 t.p1 t.p2 = true
    · rw [if_pos hpt]
      constructor
      · intro h
        cases h
        exact ⟨Nat.succ_pos _, by simpa using hpt, fun j hj => absurd hj (by omega)⟩
      · rintro ⟨hk, hmem, hfirst⟩
        cases k with
        | zero => rfl
        | succ k =>
          exact absurd (by simpa using hfirst 0 (Nat.succ_pos k))
            (by simp [hpt])
    · rw [if_neg hpt]
      rw [Option.map_eq_some']
      constructor
      · rintro ⟨a, ha, rfl⟩
        obtain ⟨hk, hmem, hfirst⟩ := (ih a).mp ha
        refine ⟨Nat.succ_lt_succ hk, by simpa using hmem, ?_⟩
        intro j hj
        cases j with
        | zero => simpa using Bool.eq_false_iff.mpr hpt
        | succ j => simpa using hfirst j (by omega)
      · rintro ⟨hk, hmem, hfirst⟩
        cases k with
        | zero => exact absurd (by simpa using hmem) hpt
        | succ k =>
          refine ⟨k, (ih k).mpr ⟨by simpa using hk, by simpa using hmem, ?_⟩,
            rfl⟩
          intro j hj
          simpa using hfirst (j + 1) (by omega)

/-- C5.  During data association every sample is projected with the current
(frozen) intrinsics and assigned to at most one triangle: the list recorded
under triangle `k` consists exactly of the samples whose projected pixel has
`k` as its first containing triangle in mesh-storage order (so scanning
stops at the first hit), and samples contained in no triangle appear in no
per-triangle list. -/
theorem C5_first_match_wins (cloud : List V3) (mesh : List Tri) (ext : Pose)
    (K : Cal) :
    ((collectTriangleDataPoints cloud mesh ext K).corresp.length =
      mesh.length) ∧
    (∀ k : ℕ, k < mesh.length →
      (collectTriangleDataPoints cloud mesh ext K).corresp.getD k [] =
        cloud.filterMap (fun lmk =>
          if firstContaining mesh
              (generatePixelFromLandmarkGivenCamera lmk ext K) = some k
          then some (lmk, generatePixelFromLandmarkGivenCamera lmk ext K)
          else none)) ∧
    (∀ (px : Pix) (k : ℕ), firstContaining mesh px = some k ↔
      ∃ hk : k < mesh.length,
        pointInTriangle px (mesh.get ⟨k, hk⟩).p0 (mesh.get ⟨k, hk⟩).p1
          (mesh.get ⟨k, hk⟩).p2 = true ∧
        ∀ (j : ℕ) (hj : j < k),
          pointInTriangle px (mesh.get ⟨j, hj.trans hk⟩).p0
            (mesh.get ⟨j, hj.trans hk⟩).p1
            (mesh.get ⟨j, hj.trans hk⟩).p2 = false) := by
  have hinit : ∀ k : ℕ,
      ((mesh.map (fun _ => ([] : List (V3 × Pix)))).getD k []) = [] := by
    intro k
    rw [List.getD_eq_getElem?_getD, List.getElem?_map]
    cases mesh[k]? <;> rfl
  refine ⟨?_, ?_, fun px k => firstContaining_eq_some_iff mesh px k⟩
  · unfold collectTriangleDataPoints
    rw [collect_foldl_length]
    simp
  · intro k hk
    unfold collectTriangleDataPoints
    rw [collect_foldl_getD ext K mesh cloud _ k (by simpa using hk), hinit k]
    rfl

/-- Witness for C5 at the concrete input A: triangle 0 receives all four
samples, in cloud order, as the filter characterization prescribes. -/
theorem C5_first_match_wins_witness :
    (collectTriangleDataPoints exCloud [exTriA] identityPose
        exCalA).corresp.getD 0 [] =
      exCloud.filterMap (fun lmk =>
        if firstContaining [exTriA]
            (generatePixelFromLandmarkGivenCamera lmk identityPose exCalA)
            = some 0
        then some
          (lmk, generatePixelFromLandmarkGivenCamera lmk identityPose exCalA)
        else none) :=
  (C5_first_match_wins exCloud [exTriA] identityPose exCalA).2.1 0
    (by simp)

/-- C3.  On a well-formed input, the call aborts with insufficient data
(`CHECK_GT(number_of_valid_datapoints, 3u)`;
`CHECK_GT(corresp.size(), 0u)`) if and only if fewer than 4 samples matched
or no triangle received any matched sample; the matched-sample counter is
exactly the total number of recorded samples; and when at least 4 samples
matched and some triangle received one, the call proceeds with the
association tables. -/
theorem C3_insufficient_data_iff (st : Option Cal) (inp : SolveInput)
    (h1 : inp.mesh ≠ []) (h2 : 3 < inp.cloud.length) :
    ((solveOptimalMeshAssoc st inp).2 = AssocOutcome.insufficientData ↔
      ((collectTriangleDataPoints inp.cloud inp.mesh inp.ext
          (st.getD inp.K)).numValid < 4 ∨
        ∀ l ∈ (collectTriangleDataPoints inp.cloud inp.mesh inp.ext
          (st.getD inp.K)).corresp, l = [])) ∧
    ((collectTriangleDataPoints inp.cloud inp.mesh inp.ext
        (st.getD inp.K)).numValid =
      (((collectTriangleDataPoints inp.cloud inp.mesh inp.ext
          (st.getD inp.K)).corresp).map List.length).sum) ∧
    (¬((collectTriangleDataPoints inp.cloud inp.mesh inp.ext
          (st.getD inp.K)).numValid < 4 ∨
        ∀ l ∈ (collectTriangleDataPoints inp.cloud inp.mesh inp.ext
          (st.getD inp.K)).corresp, l = []) →
      (solveOptimalMeshAssoc st inp).2 =
        AssocOutcome.proceeds
          (collectTriangleDataPoints inp.cloud inp.mesh inp.ext
            (st.getD inp.K)).corresp
          (collectTriangleDataPoints inp.cloud inp.mesh inp.ext
            (st.getD inp.K)).numValid
          (st.getD inp.K)) := by
  have hval : ¬(inp.mesh.length = 0 ∨ inp.cloud.length ≤ 3) := by
    push_neg
    exact ⟨fun h => h1 (List.length_eq_zero.mp h), by omega⟩
  have hcond_iff :
      ((collectTriangleDataPoints inp.cloud inp.mesh inp.ext
          (st.getD inp.K)).numValid ≤ 3 ∨
        (collectTriangleDataPoints inp.cloud inp.mesh inp.ext
          (st.getD inp.K)).corresp.all List.isEmpty = true) ↔
      ((collectTriangleDataPoints inp.cloud inp.mesh inp.ext
          (st.getD inp.K)).numValid < 4 ∨
        ∀ l ∈ (collectTriangleDataPoints inp.cloud inp.mesh inp.ext
          (st.getD inp.K)).corresp, l = []) := by
    refine or_congr ⟨fun h => by omega, fun h => by omega⟩ ?_
    rw [List.all_eq_true]
    constructor
    · intro h l hl
      exact List.isEmpty_iff.mp (h l hl)
    · intro h l hl
      exact List.isEmpty_iff.mpr (h l hl)
  have houtcome : (solveOptimalMeshAssoc st inp).2 =
      (if (collectTriangleDataPoints inp.cloud inp.mesh inp.ext
            (st.getD inp.K)).numValid ≤ 3 ∨
          (collectTriangleDataPoints inp.cloud inp.mesh inp.ext
            (st.getD inp.K)).corresp.all List.isEmpty = true
       then AssocOutcome.insufficientData
       else AssocOutcome.proceeds
          (collectTriangleDataPoints inp.cloud inp.mesh inp.ext
            (st.getD inp.K)).corresp
          (collectTriangleDataPoints inp.cloud inp.mesh inp.ext
            (st.getD inp.K)).numValid
          (st.getD inp.K)) := by
    simp only [solveOptimalMeshAssoc, if_neg hval]
  refine ⟨?_, ?_, ?_⟩
  · rw [houtcome]
    by_cases hc : (collectTriangleDataPoints inp.cloud inp.mesh inp.ext
          (st.getD inp.K)).numValid ≤ 3 ∨
        (collectTriangleDataPoints inp.cloud inp.mesh inp.ext
          (st.getD inp.K)).corresp.all List.isEmpty = true
    · rw [if_pos hc]
      exact ⟨fun _ => hcond_iff.mp hc, fun _ => rfl⟩
    · rw [if_neg hc]
      exact ⟨fun h => AssocOutcome.noConfusion h,
        fun h => absurd (hcond_iff.mpr h) hc⟩
  · unfold collectTriangleDataPoints
    refine collect_foldl_numValid inp.ext (st.getD inp.K) inp.mesh inp.cloud
      _ ?_ ?_
    · refine (List.sum_eq_zero ?_).symm
      intro x hx
      rw [List.map_map] at hx
      obtain ⟨t, _, rfl⟩ := List.mem_map.mp hx
      rfl
    · simp
  · intro hnc
    rw [houtcome, if_neg (fun hc => hnc (hcond_iff.mp hc))]

/-- Witness for C3 at input A from the fresh state: the call proceeds and the
sample counter matches the table contents. -/
theorem C3_insufficient_data_iff_witness :
    ((solveOptimalMeshAssoc none exInputA).2 =
        AssocOutcome.insufficientData ↔
      ((collectTriangleDataPoints exInputA.cloud exInputA.mesh exInputA.ext
          ((none : Option Cal).getD exInputA.K)).numValid < 4 ∨
        ∀ l ∈ (collectTriangleDataPoints exInputA.cloud exInputA.mesh
          exInputA.ext ((none : Option Cal).getD exInputA.K)).corresp,
          l = [])) ∧
    ((collectTriangleDataPoints exInputA.cloud exInputA.mesh exInputA.ext
        ((none : Option Cal).getD exInputA.K)).numValid =
      (((collectTriangleDataPoints exInputA.cloud exInputA.mesh exInputA.ext
          ((none : Option Cal).getD exInputA.K)).corresp).map
        List.length).sum) ∧
    (¬((collectTriangleDataPoints exInputA.cloud exInputA.mesh exInputA.ext
          ((none : Option Cal).getD exInputA.K)).numValid < 4 ∨
        ∀ l ∈ (collectTriangleDataPoints exInputA.cloud exInputA.mesh
          exInputA.ext ((none : Option Cal).getD exInputA.K)).corresp,
          l = []) →
      (solveOptimalMeshAssoc none exInputA).2 =
        AssocOutcome.proceeds
          (collectTriangleDataPoints exInputA.cloud exInputA.mesh
            exInputA.ext ((none : Option Cal).getD exInputA.K)).corresp
          (collectTriangleDataPoints exInputA.cloud exInputA.mesh
            exInputA.ext ((none : Option Cal).getD exInputA.K)).numValid
          ((none : Option Cal).getD exInputA.K)) :=
  C3_insufficient_data_iff none exInputA (by simp [exInputA])
    (by simp [exInputA, exCloud])

/-- C7.  A triangle with fewer than 3 associated samples is skipped by the
linear-system builder under every strategy: it leaves the Y-row accumulator,
the global-matrix rows and the factor list untouched, and the triangle loop
simply continues with the remaining triangles (the skip never aborts the
call). -/
theorem C7_degenerate_triangle_skipped (K : Cal) (t : Tri)
    (samples : List (V3 × Pix)) (h : samples.length < 3) :
    (∀ st : DisconnectedState, processTriDisconnected K st t samples = st) ∧
    (∀ rows : List RowEntry, processTriConnected K rows t samples = rows) ∧
    (∀ fs : List TernaryFactor, processTriGtsam fs t samples = fs) ∧
    (∀ (init : DisconnectedState) (rest : List (Tri × List (V3 × Pix))),
      disconnectedFold K ((t, samples) :: rest) init =
        disconnectedFold K rest init) ∧
    (∀ (init : List RowEntry) (rest : List (Tri × List (V3 × Pix))),
      connectedFold K ((t, samples) :: rest) init =
        connectedFold K rest init) ∧
    (∀ (init : List TernaryFactor) (rest : List (Tri × List (V3 × Pix))),
      gtsamFold ((t, samples) :: rest) init = gtsamFold rest init) := by
  have hd : ∀ st : DisconnectedState,
      processTriDisconnected K st t samples = st := by
    intro st
    unfold processTriDisconnected
    rw [if_pos h]
  have hc : ∀ rows : List RowEntry,
      processTriConnected K rows t samples = rows := by
    intro rows
    unfold processTriConnected
    rw [if_pos h]
  have hg : ∀ fs : List TernaryFactor,
      processTriGtsam fs t samples = fs := by
    intro fs
    unfold processTriGtsam
    rw [if_pos h]
  refine ⟨hd, hc, hg, ?_, ?_, ?_⟩
  · intro init rest
    simp only [disconnectedFold, List.foldl_cons]
    rw [hd init]
  · intro init rest
    simp only [connectedFold, List.foldl_cons]
    rw [hc init]
  · intro init rest
    simp only [gtsamFold, List.foldl_cons]
    rw [hg init]

/-- Witness for C7: a triangle that received only two samples contributes
nothing anywhere and the loop proceeds. -/
theorem C7_degenerate_triangle_skipped_witness :
    processTriDisconnected exCalA ⟨[], []⟩ exTriA
        [(⟨1, 1, 1⟩, (1, 1)), (⟨2, 1, 1⟩, (2, 1))] = ⟨[], []⟩ ∧
    processTriConnected exCalA [] exTriA
        [(⟨1, 1, 1⟩, (1, 1)), (⟨2, 1, 1⟩, (2, 1))] = [] ∧
    processTriGtsam [] exTriA
        [(⟨1, 1, 1⟩, (1, 1)), (⟨2, 1, 1⟩, (2, 1))] = [] ∧
    disconnectedFold exCalA
        [(exTriA, [(⟨1, 1, 1⟩, (1, 1)), (⟨2, 1, 1⟩, (2, 1))])] ⟨[], []⟩ =
      disconnectedFold exCalA [] ⟨[], []⟩ := by
  have h := C7_degenerate_triangle_skipped exCalA exTriA
    [(⟨1, 1, 1⟩, (1, 1)), (⟨2, 1, 1⟩, (2, 1))] (by simp)
  exact ⟨h.1 ⟨[], []⟩, h.2.1 [], h.2.2.1 [], h.2.2.2.1 ⟨[], []⟩ []⟩

theorem countP_range_eqb_and (b : ℕ) (q : ℕ → Bool) :
    ∀ m : ℕ, b < m →
      ((List.range m).countP (fun j => j == b && q j)) =
        if q b then 1 else 0 := by
  intro m
  induction m with
  | zero => intro hb; exact absurd hb (Nat.not_lt_zero b)
  | succ m ih =>
    intro hb
    rw [List.range_succ, List.countP_append]
    rcases Nat.lt_or_ge b m with hbm | hbm
    · rw [ih hbm]
      have hmb : (m == b) = false := beq_eq_false_iff_ne.mpr (ne_of_gt hbm)
      simp [List.countP_cons, hmb]
    · have hbme : b = m := by omega
      subst hbme
      have h0 : ((List.range b).countP (fun j => j == b && q j)) = 0 := by
        apply List.countP_eq_zero.mpr
        intro j hj
        have hjb : j < b := List.mem_range.mp hj
        simp [beq_eq_false_iff_ne.mpr (Nat.ne_of_lt hjb)]
      rw [h0, List.countP_cons, List.countP_nil]
      simp

theorem sum_map_range_single (g : ℕ → ℕ) :
    ∀ (n a : ℕ), a < n → (∀ i, i < n → i ≠ a → g i = 0) →
      ((List.range n).map g).sum = g a := by
  intro n
  induction n with
  | zero => intro a ha; exact absurd ha (Nat.not_lt_zero a)
  | succ n ih =>
    intro a ha hz
    rw [List.range_succ, List.map_append, List.sum_append]
    rcases Nat.lt_or_ge a n with han | han
    · rw [ih a han (fun i hi hne => hz i (by omega) hne)]
      have hgn : g n = 0 := hz n (by omega) (by omega)
      simp [hgn]
    · have hae : a = n := by omega
      subst hae
      have h0 : ((List.range a).map g).sum = 0 := by
        apply List.sum_eq_zero
        intro x hx
        obtain ⟨i, hi, rfl⟩ := List.mem_map.mp hx
        have hia : i < a := List.mem_range.mp hi
        exact hz i (by omega) (Nat.ne_of_lt hia)
      rw [h0]
      simp

/-- C8.  Every spring factor built from the adjacency matrix has
coefficients `+1` and `-1`, right-hand side `0` and the fixed noise sigma
`0.1`, joins a strictly lower-triangular adjacent pair; and for every
unordered pair of distinct vertices the list contains exactly one factor
touching that pair when the pair is adjacent, none otherwise. -/
theorem C8_spring_factors (n : ℕ) (adj : ℕ → ℕ → Bool)
    (hsymm : ∀ a b, adj a b = adj b a) :
    (∀ f ∈ springFactors n adj,
      f.a1 = 1 ∧ f.a2 = -1 ∧ f.rhs = 0 ∧ f.sigma = 1 / 10 ∧ f.j < f.i ∧
        f.i < n ∧ adj f.i f.j = true) ∧
    (∀ a b : ℕ, b < a → a < n →
      ((springFactors n adj).countP
          (fun f => (f.i == a && f.j == b) || (f.i == b && f.j == a))) =
        if adj a b then 1 else 0) := by
  constructor
  · intro f hf
    unfold springFactors at hf
    rw [List.mem_flatten] at hf
    obtain ⟨l, hl, hfl⟩ := hf
    rw [List.mem_map] at hl
    obtain ⟨i, hi, rfl⟩ := hl
    rw [List.mem_map] at hfl
    obtain ⟨j, hj, rfl⟩ := hfl
    rw [List.mem_filter] at hj
    exact ⟨rfl, rfl, rfl, rfl, List.mem_range.mp hj.1,
      List.mem_range.mp hi, hj.2⟩
  · intro a b hba han
    unfold springFactors
    rw [List.countP_flatten, List.map_map]
    have hzero : ∀ i, i < n → i ≠ a →
        (List.countP
            (fun f : SpringFactor =>
              (f.i == a && f.j == b) || (f.i == b && f.j == a)) ∘
          fun i => ((List.range i).filter (fun j => adj i j)).map
            (fun j => SpringFactor.mk i j 1 (-1) 0 (1 / 10))) i = 0 := by
      intro i _ hia
      simp only [Function.comp]
      apply List.countP_eq_zero.mpr
      intro f hf
      obtain ⟨j, hj, rfl⟩ := List.mem_map.mp hf
      rw [List.mem_filter] at hj
      have hji : j < i := List.mem_range.mp hj.1
      simp only [Bool.or_eq_true, Bool.and_eq_true, beq_iff_eq]
      rintro (⟨hia2, _⟩ | ⟨hib, hja⟩)
      · exact hia hia2
      · subst hib
        subst hja
        omega
    rw [sum_map_range_single _ n a han hzero]
    simp only [Function.comp]
    rw [List.countP_map, List.countP_filter]
    have hab : a ≠ b := ne_of_gt hba
    have hpred : (fun j =>
        ((fun f : SpringFactor =>
            (f.i == a && f.j == b) || (f.i == b && f.j == a))
          (SpringFactor.mk a j 1 (-1) 0 (1 / 10))) && adj a j) =
        (fun j => j == b && adj a j) := by
      funext j
      simp [beq_eq_false_iff_ne.mpr hab]
    rw [show ((fun f : SpringFactor =>
          (f.i == a && f.j == b) || (f.i == b && f.j == a)) ∘
        fun j => SpringFactor.mk a j 1 (-1) 0 (1 / 10)) =
        fun j => (a == a && j == b) || (a == b && j == a) from rfl]
    have hstep : (List.countP
        (fun j => ((a == a && j == b) || (a == b && j == a)) && adj a j)
        (List.range a)) =
        (List.countP (fun j => j == b && adj a j) (List.range a)) := by
      apply congrArg (fun p => List.countP p (List.range a))
      funext j
      simp [beq_eq_false_iff_ne.mpr hab]
    rw [hstep, countP_range_eqb_and b (adj a) a hba]

/-- Witness for C8 on a 3-vertex mesh whose only edge joins vertices 1 and
2 (`adj x y` iff `x + y = 3`): exactly one spring factor touches the pair. -/
theorem C8_spring_factors_witness :
    ((springFactors 3 (fun x y => x + y == 3)).countP
        (fun f => (f.i == 2 && f.j == 1) || (f.i == 1 && f.j == 2))) = 1 := by
  have h := (C8_spring_factors 3 (fun x y => x + y == 3)
    (by intro x y; simp [Nat.add_comm])).2 2 1 (by omega) (by omega)
  simpa using h

/-- The Disconnected triangle loop never touches the reconstructed mesh: the
reconstruction block (MeshOptimization.cpp lines 410-444) is dead code, so
each iteration returns the mesh accumulator unchanged. -/
theorem disconnectedFold_mesh3 (K : Cal) (l : List (Tri × List (V3 × Pix))) :
    ∀ init : DisconnectedState,
      (disconnectedFold K l init).mesh3 = init.mesh3 := by
  induction l with
  | nil => intro init; rfl
  | cons p ps ih =>
    intro init
    simp only [disconnectedFold, List.foldl_cons] at *
    rw [ih]
    unfold processTriDisconnected
    split <;> rfl

/-- C1.  Under the Disconnected strategy the returned 3D mesh is always
empty — zero vertices, not 3 per non-degenerate triangle: the per-triangle
reconstruction block that would create the three fresh vertices is
unreachable (it sits inside the strategy switch after the default case's
`break`, behind no case label), and the final switch does nothing for this
strategy. -/
theorem C1_disconnected_mesh_empty (st : Option Cal) (inp : SolveInput)
    (m : List (List (ℕ × V3R)))
    (h : (solveOptimalMeshDisconnected st inp).2 =
      DisconnectedOutcome.output m) : m = [] := by
  unfold solveOptimalMeshDisconnected at h
  by_cases hval : inp.mesh.length = 0 ∨ inp.cloud.length ≤ 3
  · rw [if_pos hval] at h
    exact absurd h (by simp)
  · rw [if_neg hval] at h
    simp only at h
    by_cases hc : (collectTriangleDataPoints inp.cloud inp.mesh inp.ext
          (st.getD inp.K)).numValid ≤ 3 ∨
        (collectTriangleDataPoints inp.cloud inp.mesh inp.ext
          (st.getD inp.K)).corresp.all List.isEmpty = true
    · rw [if_pos hc] at h
      exact absurd h (by simp)
    · rw [if_neg hc] at h
      cases h
      exact disconnectedFold_mesh3 _ _ _

/-- Witness for C1: on the concrete input A — one triangle, four associated
samples, so nothing is degenerate and the claim demands `3 × 1 = 3`
vertices — the Disconnected call returns the empty mesh. -/
theorem C1_disconnected_mesh_empty_witness :
    (solveOptimalMeshDisconnected none exInputA).2 =
      DisconnectedOutcome.output [] := by
  have h : (solveOptimalMeshDisconnected none exInputA).2 =
      DisconnectedOutcome.output
        ((disconnectedFold exCalA
          (exInputA.mesh.zip
            (collectTriangleDataPoints exInputA.cloud exInputA.mesh
              exInputA.ext exCalA).corresp) ⟨[], []⟩).mesh3) := by
    have hval : ¬(exInputA.mesh.length = 0 ∨ exInputA.cloud.length ≤ 3) := by
      simp [exInputA, exCloud]
    have hc : ¬((collectTriangleDataPoints exInputA.cloud exInputA.mesh
          exInputA.ext exCalA).numValid ≤ 3 ∨
        (collectTriangleDataPoints exInputA.cloud exInputA.mesh
          exInputA.ext exCalA).corresp.all List.isEmpty = true) := by
      norm_num [collectTriangleDataPoints, collectStep, firstContaining,
        pointInTriangle, sign, generatePixelFromLandmarkGivenCamera,
        identityPose, Pose.transformTo, exCalA, exCloud, exTriA, exInputA]
    unfold solveOptimalMeshDisconnected
    rw [if_neg hval]
    simp only [Option.getD_none]
    rw [if_neg ?_]
    · rfl
    · exact (by simpa [exInputA] using hc)
  exact h.trans (congrArg DisconnectedOutcome.output
    (C1_disconnected_mesh_empty none exInputA _ h))

/-- Witness for C4 on the triangle `(0,0), (10,0), (0,10)`: the interior
point `(1,1)` is accepted, the exterior point `(20,20)` is rejected, and the
edge point `(5,0)` is accepted. -/
theorem C4_pointInTriangle_sign_classifier_witness :
    pointInTriangle (1, 1) (0, 0) (10, 0) (0, 10) = true ∧
    pointInTriangle (20, 20) (0, 0) (10, 0) (0, 10) = false ∧
    pointInTriangle (5, 0) (0, 0) (10, 0) (0, 10) = true := by
  refine ⟨?_, ?_, ?_⟩
  · exact (C4_pointInTriangle_sign_classifier (1, 1) (0, 0) (10, 0)
      (0, 10)).2.1
      ⟨8/10, 1/10, 1/10, by norm_num, by norm_num, by norm_num, by norm_num,
        by norm_num, by norm_num⟩
  · refine (C4_pointInTriangle_sign_classifier (20, 20) (0, 0) (10, 0)
      (0, 10)).2.2.1 (by norm_num [orient]) ?_
    rintro ⟨a, b, c, ha, hb, hc, hsum, hx, hy⟩
    norm_num at hx hy
    linarith
  · exact (C4_pointInTriangle_sign_classifier (5, 0) (0, 0) (10, 0)
      (0, 10)).2.2.2 (Or.inl ⟨1/2, by norm_num, by norm_num, by norm_num,
        by norm_num⟩)

end KimeraVIO
